import Mathlib

/-!
# License-compliance scanner: a shallow embedding

A verification development for the license-compliance scanner scripts
(`config.py`, `classify.py`, `license_check.py`, `blame.py`).

Python strings are modelled as Lean `String`s, but every string operation
used by the scripts (trim, split, substring test, prefix test, upper-case)
is re-implemented here by structural recursion over the character list, so
that all definitions evaluate by kernel reduction.  Python dicts preserve
insertion order, so JSON-object-valued configuration tables are modelled
as association lists with first-match lookup.
-/

set_option maxRecDepth 10000

namespace LicenseCheck

/-- Substring test on character lists: Python's `sub in s`. -/
def isSubstrCh (sub : List Char) : List Char → Bool
  | [] => sub.isEmpty
  | c :: t => sub.isPrefixOf (c :: t) || isSubstrCh sub t

/-- Python's `sub in s` for strings (`sub` nonempty in all uses). -/
def strContains (s sub : String) : Bool :=
  isSubstrCh sub.toList s.toList

/-- One step of Python `str.split(sep)` with a nonempty separator, with
fuel bounding the scan length (`fuel = length of the scanned list + 1`
always suffices, since each step either stops or consumes a character). -/
def splitChGo (sep : List Char) : Nat → List Char → List Char → List (List Char)
  | 0, l, acc => [acc.reverse ++ l]
  | _ + 1, [], acc => [acc.reverse]
  | fuel + 1, c :: t, acc =>
    if sep.isPrefixOf (c :: t) then
      acc.reverse :: splitChGo sep fuel ((c :: t).drop sep.length) []
    else
      splitChGo sep fuel t (c :: acc)

/-- Python's `s.split(sep)` for a nonempty separator. -/
def splitOnStr (s sep : String) : List String :=
  (splitChGo sep.toList (s.toList.length + 1) s.toList []).map
    (fun l => String.mk l)

/-- Python's `str.strip()` (whitespace from both ends). -/
def trimStr (s : String) : String :=
  String.mk (((s.toList.dropWhile Char.isWhitespace).reverse.dropWhile
    Char.isWhitespace).reverse)

/-- Python's `str.strip("()")`: parentheses stripped from both ends. -/
def stripParensStr (s : String) : String :=
  String.mk (((s.toList.dropWhile (fun c => c = '(' || c = ')')).reverse.dropWhile
    (fun c => c = '(' || c = ')')).reverse)

/-- Python's `str.upper()` (ASCII-faithful). -/
def upperStr (s : String) : String :=
  String.mk (s.toList.map Char.toUpper)

/-- Python's `s.startswith(p)`. -/
def startsWithStr (s p : String) : Bool :=
  p.toList.isPrefixOf s.toList

/-- First-match lookup in an association list: Python `dict.get` under
insertion order. -/
def lookupAL (l : List (String × String)) (k : String) : Option String :=
  (l.find? (fun p => p.1 = k)).map (·.2)

/-- `fnmatch`-style glob step with fuel (`*` and `?` wildcards; patterns in
this repository's configurations do not use bracket classes, which are
therefore treated as literal characters).  Fuel
`pattern length + string length + 1` always suffices since every step
shortens the pattern or the string. -/
def globGo : Nat → List Char → List Char → Bool
  | 0, _, _ => false
  | _ + 1, [], s => s.isEmpty
  | fuel + 1, p :: ps, s =>
    if p = '*' then
      globGo fuel ps s ||
        (match s with
         | [] => false
         | _ :: t => globGo fuel (p :: ps) t)
    else
      match s with
      | [] => false
      | c :: t => (p = '?' || p = c) && globGo fuel ps t

/-- Models `fnmatch.fnmatch(name, pattern)` (POSIX case behaviour). -/
def fnmatchB (name pattern : String) : Bool :=
  globGo (pattern.toList.length + name.toList.length + 1)
    pattern.toList name.toList

/-- An entry of the `license_overrides` configuration table
(`{license, tier, note?}`). -/
structure Override where
  license : String
  tier : String
  note : Option String
deriving DecidableEq, Repr

/-- The classification configuration (`default-config.json` schema):
JSON objects become insertion-ordered association lists. -/
structure Config where
  aliases : List (String × String)
  license_tiers : List (String × List String)
  license_overrides : List (String × Override)
  severity_map : List (String × String)
  dev_severity_reduction : List (String × String)
deriving DecidableEq, Repr

/-- `config.py:normalize_license` — normalize via the alias table. -/
def normalize_license (raw : String) (config : Config) : String :=
  if raw = "" then "UNKNOWN"
  else
    let trimmed := trimStr raw
    (lookupAL config.aliases trimmed).getD trimmed

/-- `config.py:classify_license` — first tier whose membership list
contains the string, else `"unknown"`. -/
def classify_license (license_str : String) (config : Config) : String :=
  ((config.license_tiers.find? (fun p => p.2.contains license_str)).map
    (·.1)).getD "unknown"

/-- `config.py` tier rank table `tier_rank`, with the `.get(tier, 3)`
default baked in. -/
def tierRank (tier : String) : Nat :=
  if tier = "permissive" then 0
  else if tier = "weak_copyleft" then 1
  else if tier = "restrictive" then 2
  else 3

/-- Rank of one SPDX operand after normalization and classification. -/
def rankOf (config : Config) (part : String) : Nat :=
  tierRank (classify_license (normalize_license part config) config)

/-- One iteration of the `OR` loop of `evaluate_spdx_expr`: keep the
strictly most-permissive operand seen so far. -/
def orStep (config : Config) (best : String × String) (part : String) :
    String × String :=
  let norm := normalize_license part config
  let tier := classify_license norm config
  if tierRank tier < tierRank best.2 then (norm, tier) else best

/-- One iteration of the `AND` loop of `evaluate_spdx_expr`: keep the
strictly most-restrictive operand seen so far. -/
def andStep (config : Config) (worst : String × String) (part : String) :
    String × String :=
  let norm := normalize_license part config
  let tier := classify_license norm config
  if tierRank tier > tierRank worst.2 then (norm, tier) else worst

/-- The `OR` loop of `evaluate_spdx_expr`, starting from
`(expr, "unknown")`. -/
def orFold (parts : List String) (expr : String) (config : Config) :
    String × String :=
  parts.foldl (orStep config) (expr, "unknown")

/-- The `AND` loop of `evaluate_spdx_expr`, starting from
`(expr, "permissive")`. -/
def andFold (parts : List String) (expr : String) (config : Config) :
    String × String :=
  parts.foldl (andStep config) (expr, "permissive")

/-- Operands of an `" OR "`-joined expression, as computed by
`evaluate_spdx_expr` (`p.strip().strip("()")`). -/
def orParts (expr : String) : List String :=
  (splitOnStr expr " OR ").map (fun p => stripParensStr (trimStr p))

/-- Operands of an `" AND "`-joined expression. -/
def andParts (expr : String) : List String :=
  (splitOnStr expr " AND ").map (fun p => stripParensStr (trimStr p))

/-- Slash operands (`expr.split("/")`, each `strip()`ped). -/
def slashParts (expr : String) : List String :=
  (splitOnStr expr "/").map trimStr

/-- Spaced-slash operands (`expr.split(" / ")`, each `strip()`ped). -/
def spacedSlashParts (expr : String) : List String :=
  (splitOnStr expr " / ").map trimStr

/-- Whether some operand is a recognized license token (the `any_known`
guard of the slash branches). -/
def anyKnown (parts : List String) (config : Config) : Bool :=
  parts.any
    (fun p => classify_license (normalize_license p config) config ≠ "unknown")

/-- The tail of `evaluate_spdx_expr` (lines 92-110 of `config.py`): the
space-padded-slash branch followed by single-license classification. -/
def evalSlashSpace (expr : String) (config : Config) : String × String :=
  if strContains expr " / " then
    let parts := spacedSlashParts expr
    if anyKnown parts config then orFold parts expr config
    else
      let norm := normalize_license expr config
      (norm, classify_license norm config)
  else
    let norm := normalize_license expr config
    (norm, classify_license norm config)

/-- `config.py:evaluate_spdx_expr` — evaluate an SPDX expression,
returning `(best_license, tier)`. -/
def evaluate_spdx_expr (expr : String) (config : Config) : String × String :=
  if strContains expr " OR " then orFold (orParts expr) expr config
  else if strContains expr " AND " then andFold (andParts expr) expr config
  else if strContains expr "/" && !strContains expr " " then
    if anyKnown (slashParts expr) config then
      orFold (slashParts expr) expr config
    else evalSlashSpace expr config
  else evalSlashSpace expr config

/-- The per-pattern match test of `find_override`
(`fnmatch.fnmatch(pkg_name, pattern) or pkg_name == pattern`). -/
def overrideMatches (pkg_name pattern : String) : Bool :=
  fnmatchB pkg_name pattern || pkg_name = pattern

/-- `config.py:find_override` — first `license_overrides` entry (in table
insertion order) whose pattern matches the package name. -/
def find_override (pkg_name : String) (config : Config) : Option Override :=
  ((config.license_overrides.find?
    (fun p => overrideMatches pkg_name p.1)).map (·.2))
end LicenseCheck

namespace LicenseCheck

/-- Modelled from the spec: the default configuration file
(`config/default-config.json`) is not among the sources; its contents are
reconstructed from the spec's schema (§6), tier glossary, and testable
properties (MIT/Apache-2.0 permissive, LGPL weak-copyleft, GPL-3.0
restrictive, HIGH→MEDIUM dev reduction, REVIEW for unknown). -/
def defaultConfig : Config where
  aliases := [("Apache 2.0", "Apache-2.0"), ("GPLv3", "GPL-3.0")]
  license_tiers :=
    [("permissive",
      ["MIT", "Apache-2.0", "BSD-2-Clause", "BSD-3-Clause", "ISC",
       "Unlicense", "0BSD"]),
     ("weak_copyleft",
      ["LGPL-2.1-only", "LGPL-2.1-or-later", "LGPL-3.0-only", "MPL-2.0",
       "EPL-2.0"]),
     ("restrictive",
      ["GPL-2.0-only", "GPL-3.0", "GPL-3.0-only", "AGPL-3.0",
       "AGPL-3.0-only", "SSPL-1.0"])]
  license_overrides := []
  severity_map :=
    [("restrictive", "HIGH"), ("weak_copyleft", "MEDIUM"),
     ("permissive", "LOW"), ("custom", "REVIEW"), ("unknown", "REVIEW")]
  dev_severity_reduction := [("HIGH", "MEDIUM"), ("MEDIUM", "LOW")]

/-- A raw package record as emitted by an ecosystem extractor.
`license` is `Option`al to mirror `pkg.get("license", "UNKNOWN")`;
`is_dev` mirrors `pkg.get("is_dev", False)`. -/
structure Pkg where
  name : String
  version : String
  license : Option String
  is_dev : Bool
deriving DecidableEq, Repr

/-- A classified entry as built by `classify_packages`.  `note` is present
(`some _`) exactly on the override path; `resolved_via` exactly on the
second-pass registry path. -/
structure Entry where
  name : String
  version : String
  license : String
  raw_license : String
  tier : String
  severity : String
  is_dev : Bool
  note : Option String
  resolved_via : Option String
deriving DecidableEq, Repr

/-- The five tier buckets of the `results` dict in `classify_packages`. -/
structure Results where
  permissive : List Entry
  weak_copyleft : List Entry
  restrictive : List Entry
  custom : List Entry
  unknown : List Entry
deriving DecidableEq, Repr

/-- The empty `results` dict. -/
def emptyResults : Results := ⟨[], [], [], [], []⟩

/-- The five bucket keys of the `results` dict, in declaration order. -/
def fiveTiers : List String :=
  ["permissive", "weak_copyleft", "restrictive", "custom", "unknown"]

/-- Bucket projection (`results[tier]` on the reading side). -/
def getBucket (r : Results) (tier : String) : List Entry :=
  if tier = "permissive" then r.permissive
  else if tier = "weak_copyleft" then r.weak_copyleft
  else if tier = "restrictive" then r.restrictive
  else if tier = "custom" then r.custom
  else if tier = "unknown" then r.unknown
  else []

/-- `results[tier].append(entry)`; `none` models Python's `KeyError` on a
tier name outside the five bucket keys. -/
def addTo (r : Results) (tier : String) (e : Entry) : Option Results :=
  if tier = "permissive" then some { r with permissive := r.permissive ++ [e] }
  else if tier = "weak_copyleft" then
    some { r with weak_copyleft := r.weak_copyleft ++ [e] }
  else if tier = "restrictive" then
    some { r with restrictive := r.restrictive ++ [e] }
  else if tier = "custom" then some { r with custom := r.custom ++ [e] }
  else if tier = "unknown" then some { r with unknown := r.unknown ++ [e] }
  else none

/-- Dev-dependency severity reduction
(`dev_reduction.get(severity, severity)` applied only when `is_dev`). -/
def devAdjust (config : Config) (is_dev : Bool) (severity : String) : String :=
  if is_dev then (lookupAL config.dev_severity_reduction severity).getD severity
  else severity

/-- The entry built on the override path of `classify_packages`
(lines 33-44 of `classify.py`). -/
def overrideEntry (config : Config) (pkg : Pkg) (o : Override) : Entry where
  name := pkg.name
  version := pkg.version
  license := o.license
  raw_license := pkg.license.getD "UNKNOWN"
  tier := o.tier
  severity := devAdjust config pkg.is_dev
    ((lookupAL config.severity_map o.tier).getD "REVIEW")
  is_dev := pkg.is_dev
  note := some (o.note.getD "")
  resolved_via := none

/-- The `(normalized, tier)` pair computed for a non-overridden record
(the sentinel checks of lines 49-59 of `classify.py` followed by SPDX
evaluation). -/
def normalizedTier (config : Config) (raw : String) : String × String :=
  if startsWithStr (upperStr raw) "SEE LICENSE IN" then (raw, "unknown")
  else if raw = "UNLICENSED" then ("UNLICENSED", "unknown")
  else if raw = "Unknown" || raw = "UNKNOWN" || raw = "" then
    ("UNKNOWN", "unknown")
  else evaluate_spdx_expr raw config

/-- The entry built on the non-override path (lines 49-73). -/
def normalEntry (config : Config) (pkg : Pkg) : Entry :=
  let raw := pkg.license.getD "UNKNOWN"
  let nt := normalizedTier config raw
  { name := pkg.name
    version := pkg.version
    license := nt.1
    raw_license := raw
    tier := nt.2
    severity := devAdjust config pkg.is_dev
      ((lookupAL config.severity_map nt.2).getD "LOW")
    is_dev := pkg.is_dev
    note := none
    resolved_via := none }

/-- First-pass classification of one record: `Sum.inl (tier, entry)` is an
immediate bucket placement, `Sum.inr entry` a record deferred to the
second (registry) pass because its tier is `"unknown"`. -/
def firstPass (config : Config) (pkg : Pkg) : (String × Entry) ⊕ Entry :=
  match find_override pkg.name config with
  | some o => Sum.inl (o.tier, overrideEntry config pkg o)
  | none =>
    let e := normalEntry config pkg
    if e.tier = "unknown" then Sum.inr e else Sum.inl (e.tier, e)

/-- One iteration of the first-pass loop over `packages`. -/
def fpStep (config : Config) (acc : Results × List (Entry × Pkg)) (pkg : Pkg) :
    Option (Results × List (Entry × Pkg)) :=
  match firstPass config pkg with
  | Sum.inl (tier, e) => (addTo acc.1 tier e).map (fun r => (r, acc.2))
  | Sum.inr e => some (acc.1, acc.2 ++ [(e, pkg)])

/-- The whole first pass of `classify_packages`. -/
def firstPassAll (config : Config) (packages : List Pkg) :
    Option (Results × List (Entry × Pkg)) :=
  packages.foldlM (fpStep config) (emptyResults, [])

/-- The registry tag chosen for the second pass (`source_tag`). -/
def sourceTag (ecosystem : String) : String :=
  if ecosystem = "cargo" then "crates.io"
  else if ecosystem = "pypi" then "pypi"
  else "npm"

/-- The entry mutation applied when the second pass resolves a pending
record via the registry (lines 98-106 of `classify.py`). -/
def resolvedEntry (config : Config) (ecosystem : String) (e : Entry)
    (regLicense : String) : Entry :=
  let nt := evaluate_spdx_expr regLicense config
  { e with
    license := nt.1
    raw_license :=
      e.raw_license ++ " -> " ++ sourceTag ecosystem ++ ":" ++ regLicense
    tier := nt.2
    severity := devAdjust config e.is_dev
      ((lookupAL config.severity_map nt.2).getD "LOW")
    resolved_via := some (sourceTag ecosystem ++ "_registry") }

/-- The second-pass re-resolution of one pending unknown record
(lines 87-110 of `classify.py`); `lookup` abstracts the network registry
client (`lookup_npm_license` / `lookup_pypi_license` /
`lookup_crates_io_license`, chosen by ecosystem in the source, all of the
same shape `name → version → Option license`). -/
def spStep (config : Config) (ecosystem : String)
    (lookup : String → String → Option String) (r : Results)
    (pending : Entry × Pkg) : Option Results :=
  let e := pending.1
  match lookup e.name e.version with
  | some regLicense =>
    addTo r (evaluate_spdx_expr regLicense config).2
      (resolvedEntry config ecosystem e regLicense)
  | none => some { r with unknown := r.unknown ++ [e] }

/-- Whether the second pass runs at all
(`resolve_unknowns and unknown_pkgs and ecosystem not in (...)`). -/
def secondPassEnabled (resolve_unknowns : Bool) (ecosystem : String)
    (pending : List (Entry × Pkg)) : Bool :=
  resolve_unknowns && !pending.isEmpty &&
    !(["github", "maven", "nuget"].contains ecosystem)

/-- `classify.py:classify_packages` — classify all packages into the five
tier buckets.  `lookup` abstracts the per-ecosystem registry client. -/
def classify_packages (packages : List Pkg) (config : Config)
    (resolve_unknowns : Bool) (ecosystem : String)
    (lookup : String → String → Option String) : Option Results := do
  let fp ← firstPassAll config packages
  if secondPassEnabled resolve_unknowns ecosystem fp.2 then
    fp.2.foldlM (spStep config ecosystem lookup) fp.1
  else
    some { fp.1 with unknown := fp.1.unknown ++ fp.2.map (·.1) }

/-- `license_check.py:scan_project` summary counts. -/
structure Summary where
  permissive : Nat
  weak_copyleft : Nat
  restrictive : Nat
  custom : Nat
  unknown : Nat
  total : Nat
deriving DecidableEq, Repr

/-- The `summary` object built by `scan_project` (lines 348-355). -/
def summaryOf (r : Results) (packages : List Pkg) : Summary where
  permissive := r.permissive.length
  weak_copyleft := r.weak_copyleft.length
  restrictive := r.restrictive.length
  custom := r.custom.length
  unknown := r.unknown.length
  total := packages.length

/-- `scan_project`'s `has_violations = len(classified["restrictive"]) > 0`. -/
def has_violations (r : Results) : Bool :=
  decide (0 < r.restrictive.length)

/-- Well-formedness of a configuration: every configured tier name (tier
table keys and override tiers) is one of the five bucket keys, so the
Python code never raises `KeyError` on `results[tier]`. -/
def WFConfig (config : Config) : Prop :=
  (∀ p ∈ config.license_tiers, p.1 ∈ fiveTiers) ∧
    (∀ p ∈ config.license_overrides, p.2.tier ∈ fiveTiers)

instance : DecidablePred WFConfig := fun config => by
  unfold WFConfig; infer_instance

/-- The three-package end-to-end scenario of the spec (§8). -/
def scenarioPkgs : List Pkg :=
  [⟨"mit-pkg", "1.0", some "MIT", false⟩,
   ⟨"gpl-pkg", "2.0", some "GPL-3.0", false⟩,
   ⟨"mystery-pkg", "0.1", some "", false⟩]

/-- The bucket a record would be placed in by the first pass, as a pure
per-record function (`none` = deferred to the second pass). -/
def recordBucket (config : Config) (pkg : Pkg) (tier : String) : Option Entry :=
  match firstPass config pkg with
  | Sum.inl (t, e) => if t = tier then some e else none
  | Sum.inr _ => none

/-- The first-pass contents of one bucket, as a per-record `filterMap`. -/
def bucketFP (config : Config) (packages : List Pkg) (tier : String) :
    List Entry :=
  packages.filterMap (fun pkg => recordBucket config pkg tier)

/-- The records deferred to the second pass, as a per-record
`filterMap`. -/
def pendingFP (config : Config) (packages : List Pkg) : List (Entry × Pkg) :=
  packages.filterMap
    (fun pkg =>
      match firstPass config pkg with
      | Sum.inl _ => none
      | Sum.inr e => some (e, pkg))

/-- The bucket a pending record lands in during the second pass, as a pure
per-record function of the abstract registry response. -/
def resolvedBucket (config : Config) (ecosystem : String)
    (lookup : String → String → Option String) (pending : Entry × Pkg)
    (tier : String) : Option Entry :=
  let e := pending.1
  match lookup e.name e.version with
  | some regLicense =>
    if (evaluate_spdx_expr regLicense config).2 = tier then
      some (resolvedEntry config ecosystem e regLicense)
    else none
  | none => if tier = "unknown" then some e else none

/-- The full contents of one bucket after both passes, as a function of
per-record classifications only (first-pass entries in input order,
second-pass placements appended after them). -/
def finalBucket (config : Config) (packages : List Pkg)
    (resolve_unknowns : Bool) (ecosystem : String)
    (lookup : String → String → Option String) (tier : String) : List Entry :=
  let pending := pendingFP config packages
  bucketFP config packages tier ++
    (if secondPassEnabled resolve_unknowns ecosystem pending then
      pending.filterMap
        (fun p => resolvedBucket config ecosystem lookup p tier)
    else if tier = "unknown" then pending.map (·.1) else [])

/-- `license_check.py:detect_package_manager`'s view of a project
directory: the set of marker files present at the root, the parsed
`packageManager` field of `package.json` (`none` models an unreadable or
unparseable file, `some ""` a parseable file without the field), and the
two filesystem glob probes the detector delegates
(`find_package_resolved`, `*.csproj`/`*.sln`). -/
structure Dir where
  files : List String
  pmField : Option String
  hasPackageResolved : Bool
  hasCsprojOrSln : Bool
deriving DecidableEq, Repr

/-- The `packageManager`-field fallback of `detect_package_manager`
(lines 56-69 of `license_check.py`). -/
def pmFromField (d : Dir) : Option String :=
  if d.files.contains "package.json" then
    match d.pmField with
    | some pm =>
      if startsWithStr pm "pnpm" then some "pnpm"
      else if startsWithStr pm "yarn" then some "yarn"
      else if startsWithStr pm "npm" then some "npm"
      else none
    | none => none
  else none

/-- `license_check.py:detect_package_manager` — fixed-priority marker-file
inspection; `none` is the "undetermined" result. -/
def detect_package_manager (d : Dir) : Option String :=
  if d.files.contains "foundry.toml" then some "solidity"
  else if d.files.contains "pnpm-lock.yaml" then some "pnpm"
  else if d.files.contains "yarn.lock" then some "yarn"
  else if d.files.contains "package-lock.json" then some "npm"
  else
    match pmFromField d with
    | some pm => some pm
    | none =>
      if d.files.contains "Cargo.lock" || d.files.contains "Cargo.toml" then
        some "cargo"
      else if d.files.contains "gradle/libs.versions.toml" then some "gradle"
      else if d.files.contains "build.gradle.kts" ||
          d.files.contains "build.gradle" ||
          d.files.contains "settings.gradle.kts" then some "gradle"
      else if d.hasPackageResolved then some "swift"
      else if d.files.contains "pubspec.lock" ||
          d.files.contains "pubspec.yaml" then some "dart"
      else if d.files.contains "go.sum" || d.files.contains "go.mod" then
        some "go"
      else if d.files.contains "Directory.Packages.props" then some "csharp"
      else if d.hasCsprojOrSln then some "csharp"
      else if d.files.contains "poetry.lock" then some "poetry"
      else if d.files.contains "uv.lock" then some "uv"
      else if d.files.contains "Pipfile.lock" then some "pipenv"
      else if d.files.contains "requirements.txt" then some "pip"
      else none

/-- The non-`package.json` marker files probed by the detector. -/
def markerFiles : List String :=
  ["foundry.toml", "pnpm-lock.yaml", "yarn.lock", "package-lock.json",
   "Cargo.lock", "Cargo.toml", "gradle/libs.versions.toml",
   "build.gradle.kts", "build.gradle", "settings.gradle.kts",
   "pubspec.lock", "pubspec.yaml", "go.sum", "go.mod",
   "Directory.Packages.props", "poetry.lock", "uv.lock", "Pipfile.lock",
   "requirements.txt"]

/-- Whether any supported-ecosystem marker signal is present: a marker
file, a positive glob probe, or a recognized `packageManager` field. -/
def hasMarkerSignal (d : Dir) : Bool :=
  markerFiles.any (fun f => d.files.contains f) || d.hasPackageResolved ||
    d.hasCsprojOrSln || (pmFromField d).isSome

/-- The exit-code logic of `license_check.py:main` (lines 414-436): clone
failure (`--repo` mode) and detection failure (`--path` mode) exit 1;
otherwise the scan runs and a result with `has_violations` exits 2, any
other result exits 0 (the implicit interpreter exit). `cloneOk` abstracts
`clone_and_install` succeeding; `detected` abstracts
`detect_package_manager` on the scanned path. -/
def mainExit (useRepo : Bool) (cloneOk : Bool) (detected : Option String)
    (scanHasViolations : Bool) : Nat :=
  if useRepo then
    if cloneOk then (if scanHasViolations then 2 else 0) else 1
  else
    match detected with
    | none => 1
    | some _ => if scanHasViolations then 2 else 0

/-- A parsed `npm ls --json` dependency tree node (`blame.py` receives it
as nested dicts; insertion-ordered objects become association lists). -/
inductive NpmNode where
  | mk : List (String × NpmNode) → NpmNode

/-- The child list of a node. -/
def NpmNode.deps : NpmNode → List (String × NpmNode)
  | .mk l => l

mutual
/-- `blame.py:_find_path` — depth-first search for the target package in
an `npm ls --json` tree, returning the name path from a root-level
dependency down to the target. -/
def findPath (node : NpmNode) (target : String) (path : List String) :
    Option (List String) :=
  findPathList node.deps target path
termination_by sizeOf node
decreasing_by simp_wf; cases node; simp [NpmNode.deps]

/-- The loop of `_find_path` over one node's dependency entries. -/
def findPathList (deps : List (String × NpmNode)) (target : String)
    (path : List String) : Option (List String) :=
  match deps with
  | [] => none
  | (name, info) :: rest =>
    let current := path ++ [name]
    if name = target then some current
    else
      match findPath info target current with
      | some found => some found
      | none => findPathList rest target path
termination_by sizeOf deps
decreasing_by all_goals (simp_wf; try omega)
end

/-- `blame.py:_trace_dep_chain_via_pm`, npm branch (lines 141-167) and its
fallbacks (lines 220-234, 256-257): `treeOpt` abstracts a successful
`npm ls --json` run and parse; `directDeps` the root `package.json`'s
dependency names (in declaration order); `nestedHas d` the existence probe
of `node_modules/d/node_modules/<pkg>`.  Returns
`(direct_dep_name, dependency_chain)`.  The cargo branch of the same
function is embedded separately as `traceDepChainCargo`; the pnpm and
yarn branches are further regex parsers of subprocess text and are not
needed by the claims. -/
def traceDepChainNpm (treeOpt : Option NpmNode) (directDeps : List String)
    (nestedHas : String → Bool) (pkg : String) : String × List String :=
  let viaLs : Option (String × List String) :=
    match treeOpt with
    | some tree =>
      match findPath tree pkg [] with
      | some (h :: tl) => some (h, h :: tl)
      | _ => none
    | none => none
  match viaLs with
  | some r => r
  | none =>
    match directDeps.find? (fun dep => nestedHas dep) with
    | some dep => (dep, [dep, pkg])
    | none => (pkg, [pkg])

/-- One line of `cargo tree --invert` output, parsed as in the cargo
branch of `_trace_dep_chain_via_pm` (`blame.py` line 247): skip leading
tree-drawing characters and spaces, then require a letter and take the
longest `[a-zA-Z0-9_-]*` tail. -/
def cargoLineName (line : String) : Option String :=
  match line.toList.dropWhile
      (fun c => c = '│' || c = '├' || c = '└' || c = '─' || c = ' ') with
  | [] => none
  | c :: t =>
    if c.isAlpha then
      some (String.mk
        (c :: t.takeWhile (fun d => d.isAlphanum || d = '_' || d = '-')))
    else none

/-- `blame.py:_trace_dep_chain_via_pm`, cargo branch (lines 236-254) with
the final fallback (lines 256-257): `outputLines` abstracts a successful
`cargo tree --invert -p <pkg> --depth 10` run, split into lines.  The
parsed chain runs from the flagged package down to the workspace root;
the code takes `chain[-1]` — the last parsed name — as the direct
dependency and returns the reversed chain. -/
def traceDepChainCargo (outputLines : Option (List String)) (pkg : String) :
    String × List String :=
  match outputLines with
  | some lines =>
    match lines.filterMap cargoLineName with
    | c0 :: c1 :: rest =>
      ((c0 :: c1 :: rest).getLast (by simp), (c0 :: c1 :: rest).reverse)
    | _ => (pkg, [pkg])
  | none => (pkg, [pkg])

/-- The chain selection of `blame.py:trace_blame_for_violations`
(lines 315-328): a package directly declared in a manifest is blamed on
itself with a single-element chain, otherwise the chain is traced through
the package manager. -/
def blameChain (isDirect : Bool) (treeOpt : Option NpmNode)
    (directDeps : List String) (nestedHas : String → Bool) (pkg : String) :
    String × List String :=
  if isDirect then (pkg, [pkg])
  else traceDepChainNpm treeOpt directDeps nestedHas pkg

/-- The target occurs in a tree: either as the name of a dependency entry
of the node, or inside one of its subtrees. -/
inductive Reaches : NpmNode → String → Prop where
  | head (name : String) (sub : NpmNode) (rest : List (String × NpmNode)) :
      Reaches (.mk ((name, sub) :: rest)) name
  | sub (name : String) (s : NpmNode) (rest : List (String × NpmNode))
      (target : String) :
      Reaches s target → Reaches (.mk ((name, s) :: rest)) target
  | tail (p : String × NpmNode) (rest : List (String × NpmNode))
      (target : String) :
      Reaches (.mk rest) target → Reaches (.mk (p :: rest)) target

/-- The pure per-record classification of the first pass, with deferred
records reported under their `"unknown"` tier. -/
def classifyRecord (config : Config) (pkg : Pkg) : String × Entry :=
  match firstPass config pkg with
  | Sum.inl te => te
  | Sum.inr e => ("unknown", e)

/-- The glob override entry of the C2 counterexample configuration. -/
def c2GlobOverride : Override := ⟨"MIT", "permissive", some "glob entry"⟩

/-- The exact-name override entry of the C2 counterexample
configuration. -/
def c2ExactOverride : Override := ⟨"GPL-3.0", "restrictive", some "exact entry"⟩

/-- A configuration whose override table lists a glob pattern before an
exact name that both match `"leftpad"`. -/
def c2Config : Config :=
  { defaultConfig with
    license_overrides :=
      [("left*", c2GlobOverride), ("leftpad", c2ExactOverride)] }

/-- A GPL-licensed package named `leftpad`. -/
def leftpadPkg : Pkg := ⟨"leftpad", "1.0", some "GPL-3.0", false⟩

/-- A dependency tree in which `leaf` is reachable only through the direct
dependency `middle`. -/
def demoTree : NpmNode := .mk [("middle", .mk [("leaf", .mk [])])]

/-! ## Properties of the SPDX expression evaluator -/

/-- The `OR` loop either keeps its seed (when no operand beats it) or
returns the normalization and tier of a minimal-rank operand that does. -/
lemma orRun_spec (config : Config) (parts : List String) :
    ∀ best : String × String,
      (parts.foldl (orStep config) best = best ∧
        ∀ p ∈ parts, tierRank best.2 ≤ rankOf config p) ∨
      (∃ p ∈ parts,
        parts.foldl (orStep config) best =
          (normalize_license p config,
            classify_license (normalize_license p config) config) ∧
        rankOf config p < tierRank best.2 ∧
        ∀ q ∈ parts, rankOf config p ≤ rankOf config q) := by
  induction parts with
  | nil => intro best; left; exact ⟨rfl, by simp⟩
  | cons p rest ih =>
    intro best
    rw [List.foldl_cons]
    by_cases h : rankOf config p < tierRank best.2
    · have hstep : orStep config best p =
          (normalize_license p config,
            classify_license (normalize_license p config) config) := by
        unfold rankOf at h
        simp only [orStep]
        rw [if_pos h]
      rw [hstep]
      rcases ih (normalize_license p config,
          classify_license (normalize_license p config) config) with
        ⟨heq, hall⟩ | ⟨p', hmem, heq, hlt, hmin⟩
      · right
        refine ⟨p, List.mem_cons_self p rest, heq, h, ?_⟩
        intro q hq
        rcases List.mem_cons.mp hq with hq | hq
        · subst hq; exact le_refl _
        · exact hall q hq
      · right
        refine ⟨p', List.mem_cons_of_mem _ hmem, heq, lt_trans hlt h, ?_⟩
        intro q hq
        rcases List.mem_cons.mp hq with hq | hq
        · subst hq; exact le_of_lt hlt
        · exact hmin q hq
    · have hstep : orStep config best p = best := by
        unfold rankOf at h
        simp only [orStep]
        rw [if_neg h]
      rw [hstep]
      rcases ih best with ⟨heq, hall⟩ | ⟨p', hmem, heq, hlt, hmin⟩
      · left
        refine ⟨heq, ?_⟩
        intro q hq
        rcases List.mem_cons.mp hq with hq | hq
        · subst hq; exact le_of_not_lt h
        · exact hall q hq
      · right
        refine ⟨p', List.mem_cons_of_mem _ hmem, heq, hlt, ?_⟩
        intro q hq
        rcases List.mem_cons.mp hq with hq | hq
        · subst hq; exact le_trans (le_of_lt hlt) (le_of_not_lt h)
        · exact hmin q hq

/-- The `AND` loop either keeps its seed (when no operand beats it) or
returns the normalization and tier of a maximal-rank operand that does. -/
lemma andRun_spec (config : Config) (parts : List String) :
    ∀ worst : String × String,
      (parts.foldl (andStep config) worst = worst ∧
        ∀ p ∈ parts, rankOf config p ≤ tierRank worst.2) ∨
      (∃ p ∈ parts,
        parts.foldl (andStep config) worst =
          (normalize_license p config,
            classify_license (normalize_license p config) config) ∧
        tierRank worst.2 < rankOf config p ∧
        ∀ q ∈ parts, rankOf config q ≤ rankOf config p) := by
  induction parts with
  | nil => intro worst; left; exact ⟨rfl, by simp⟩
  | cons p rest ih =>
    intro worst
    rw [List.foldl_cons]
    by_cases h : tierRank worst.2 < rankOf config p
    · have hstep : andStep config worst p =
          (normalize_license p config,
            classify_license (normalize_license p config) config) := by
        unfold rankOf at h
        simp only [andStep]
        rw [if_pos h]
      rw [hstep]
      rcases ih (normalize_license p config,
          classify_license (normalize_license p config) config) with
        ⟨heq, hall⟩ | ⟨p', hmem, heq, hlt, hmax⟩
      · right
        refine ⟨p, List.mem_cons_self p rest, heq, h, ?_⟩
        intro q hq
        rcases List.mem_cons.mp hq with hq | hq
        · subst hq; exact le_refl _
        · exact hall q hq
      · right
        refine ⟨p', List.mem_cons_of_mem _ hmem, heq, lt_trans h hlt, ?_⟩
        intro q hq
        rcases List.mem_cons.mp hq with hq | hq
        · subst hq; exact le_of_lt hlt
        · exact hmax q hq
    · have hstep : andStep config worst p = worst := by
        unfold rankOf at h
        simp only [andStep]
        rw [if_neg h]
      rw [hstep]
      rcases ih worst with ⟨heq, hall⟩ | ⟨p', hmem, heq, hlt, hmax⟩
      · left
        refine ⟨heq, ?_⟩
        intro q hq
        rcases List.mem_cons.mp hq with hq | hq
        · subst hq; exact le_of_not_lt h
        · exact hall q hq
      · right
        refine ⟨p', List.mem_cons_of_mem _ hmem, heq, hlt, ?_⟩
        intro q hq
        rcases List.mem_cons.mp hq with hq | hq
        · subst hq; exact le_trans (le_of_not_lt h) (le_of_lt hlt)
        · exact hmax q hq

/-- On an `" OR "`-joined expression, the evaluator runs the `OR` loop. -/
lemma evaluate_or (expr : String) (config : Config)
    (h : strContains expr " OR " = true) :
    evaluate_spdx_expr expr config =
      (orParts expr).foldl (orStep config) (expr, "unknown") := by
  simp [evaluate_spdx_expr, h, orFold]

/-- On an `" AND "`-joined (and `" OR "`-free) expression, the evaluator
runs the `AND` loop. -/
lemma evaluate_and (expr : String) (config : Config)
    (h1 : strContains expr " OR " = false)
    (h2 : strContains expr " AND " = true) :
    evaluate_spdx_expr expr config =
      (andParts expr).foldl (andStep config) (expr, "permissive") := by
  simp [evaluate_spdx_expr, h1, h2, andFold]

/-- A string without a space contains no `" / "` either. -/
lemma isSubstr_space_of_spaceslash :
    ∀ l : List Char, isSubstrCh [' ', '/', ' '] l = true →
      isSubstrCh [' '] l = true := by
  intro l
  induction l with
  | nil => intro h; simp [isSubstrCh] at h
  | cons c t ih =>
    intro h
    simp only [isSubstrCh, Bool.or_eq_true] at h ⊢
    rcases h with h | h
    · left
      simp only [List.isPrefixOf, Bool.and_eq_true, beq_iff_eq] at h ⊢
      exact ⟨h.1, trivial⟩
    · right; exact ih h

/-- `strContains` version of the previous lemma. -/
lemma contains_space_of_contains_spaceslash (s : String)
    (h : strContains s " / " = true) : strContains s " " = true := by
  have h1 : (" / ").toList = [' ', '/', ' '] := by decide
  have h2 : (" ").toList = [' '] := by decide
  unfold strContains at h ⊢
  rw [h1] at h
  rw [h2]
  exact isSubstr_space_of_spaceslash s.toList h

/-- **C1** is false as stated: under the default configuration (which
lists MIT as permissive and GPL-3.0 as restrictive), the `" OR "`-joined
expression `"FooLicense OR BarLicense"` does not evaluate to any operand's
normalized form — the whole unsplit expression is returned with tier
`"unknown"`. -/
theorem c1_counterexample :
    classify_license "MIT" defaultConfig = "permissive" ∧
    classify_license "GPL-3.0" defaultConfig = "restrictive" ∧
    evaluate_spdx_expr "FooLicense OR BarLicense" defaultConfig =
      ("FooLicense OR BarLicense", "unknown") ∧
    orParts "FooLicense OR BarLicense" = ["FooLicense", "BarLicense"] ∧
    ∀ p ∈ orParts "FooLicense OR BarLicense",
      normalize_license p defaultConfig ≠ "FooLicense OR BarLicense" := by
  decide

/-- **C1** (amended): whenever at least one operand of an `" OR "`-joined
expression is recognized below rank 3 (`unknown`), `evaluate_spdx_expr`
returns the normalized form and tier of a minimal-rank operand; dually,
whenever at least one operand of an `" AND "`-joined expression ranks
above 0 (`permissive`), it returns a maximal-rank operand.  In particular
`evaluate_spdx_expr "MIT OR GPL-3.0"` is `("MIT", "permissive")` and
`evaluate_spdx_expr "MIT AND GPL-3.0"` is `("GPL-3.0", "restrictive")`
under the default configuration. -/
theorem c1_or_and_pick_extremal_operand (expr : String) (config : Config) :
    ((strContains expr " OR " = true) →
      (∃ p ∈ orParts expr, rankOf config p < 3) →
      ∃ p ∈ orParts expr,
        evaluate_spdx_expr expr config =
          (normalize_license p config,
            classify_license (normalize_license p config) config) ∧
        ∀ q ∈ orParts expr, rankOf config p ≤ rankOf config q) ∧
    ((strContains expr " OR " = false) →
      (strContains expr " AND " = true) →
      (∃ p ∈ andParts expr, 0 < rankOf config p) →
      ∃ p ∈ andParts expr,
        evaluate_spdx_expr expr config =
          (normalize_license p config,
            classify_license (normalize_license p config) config) ∧
        ∀ q ∈ andParts expr, rankOf config q ≤ rankOf config p) ∧
    evaluate_spdx_expr "MIT OR GPL-3.0" defaultConfig =
      ("MIT", "permissive") ∧
    evaluate_spdx_expr "MIT AND GPL-3.0" defaultConfig =
      ("GPL-3.0", "restrictive") := by
  refine ⟨?_, ?_, by decide, by decide⟩
  · intro hOR hex
    rcases orRun_spec config (orParts expr) (expr, "unknown") with
      ⟨_, hall⟩ | ⟨p, hmem, heq, _, hmin⟩
    · rcases hex with ⟨p, hmem, hrank⟩
      have h3 := hall p hmem
      have h4 : tierRank (expr, "unknown").2 = 3 := by
        show tierRank "unknown" = 3
        decide
      omega
    · exact ⟨p, hmem, by rw [evaluate_or expr config hOR]; exact heq, hmin⟩
  · intro hOR hAND hex
    rcases andRun_spec config (andParts expr) (expr, "permissive") with
      ⟨_, hall⟩ | ⟨p, hmem, heq, _, hmax⟩
    · rcases hex with ⟨p, hmem, hrank⟩
      have h3 := hall p hmem
      have h4 : tierRank (expr, "permissive").2 = 0 := by
        show tierRank "permissive" = 0
        decide
      omega
    · exact ⟨p, hmem,
        by rw [evaluate_and expr config hOR hAND]; exact heq, hmax⟩

/-- Witness for C1's amended theorem at `"MIT OR GPL-3.0"` under the
default configuration. -/
theorem c1_witness :
    ∃ p ∈ orParts "MIT OR GPL-3.0",
      evaluate_spdx_expr "MIT OR GPL-3.0" defaultConfig =
        (normalize_license p defaultConfig,
          classify_license (normalize_license p defaultConfig)
            defaultConfig) ∧
      ∀ q ∈ orParts "MIT OR GPL-3.0",
        rankOf defaultConfig p ≤ rankOf defaultConfig q :=
  (c1_or_and_pick_extremal_operand "MIT OR GPL-3.0" defaultConfig).1
    (by decide) ⟨"MIT", by decide, by decide⟩

/-- **C10**: an `" AND "`-joined expression all of whose operands classify
as permissive evaluates to the whole original expression with tier
`"permissive"`; an `" OR "`-joined expression none of whose operands is
recognized evaluates to the whole original expression with tier
`"unknown"`. -/
theorem c10_degenerate_and_or (expr : String) (config : Config) :
    ((strContains expr " OR " = false) →
      (strContains expr " AND " = true) →
      (∀ p ∈ andParts expr,
        classify_license (normalize_license p config) config =
          "permissive") →
      evaluate_spdx_expr expr config = (expr, "permissive")) ∧
    ((strContains expr " OR " = true) →
      (∀ p ∈ orParts expr,
        classify_license (normalize_license p config) config = "unknown") →
      evaluate_spdx_expr expr config = (expr, "unknown")) := by
  constructor
  · intro hOR hAND hall
    rcases andRun_spec config (andParts expr) (expr, "permissive") with
      ⟨heq, _⟩ | ⟨p, hmem, _, hlt, _⟩
    · rw [evaluate_and expr config hOR hAND]; exact heq
    · exfalso
      have h1 : rankOf config p = 0 := by
        unfold rankOf
        rw [hall p hmem]
        decide
      have h2 : tierRank (expr, "permissive").2 = 0 := by
        show tierRank "permissive" = 0
        decide
      omega
  · intro hOR hall
    rcases orRun_spec config (orParts expr) (expr, "unknown") with
      ⟨heq, _⟩ | ⟨p, hmem, _, hlt, _⟩
    · rw [evaluate_or expr config hOR]; exact heq
    · exfalso
      have h1 : rankOf config p = 3 := by
        unfold rankOf
        rw [hall p hmem]
        decide
      have h2 : tierRank (expr, "unknown").2 = 3 := by
        show tierRank "unknown" = 3
        decide
      omega

/-- Witness for C10 at `"MIT AND Apache-2.0"` (all operands permissive)
and `"FooLicense OR BarLicense"` (no operand recognized). -/
theorem c10_witness :
    evaluate_spdx_expr "MIT AND Apache-2.0" defaultConfig =
      ("MIT AND Apache-2.0", "permissive") ∧
    evaluate_spdx_expr "FooLicense OR BarLicense" defaultConfig =
      ("FooLicense OR BarLicense", "unknown") :=
  ⟨(c10_degenerate_and_or "MIT AND Apache-2.0" defaultConfig).1
      (by decide) (by decide) (by decide),
    (c10_degenerate_and_or "FooLicense OR BarLicense" defaultConfig).2
      (by decide) (by decide)⟩

/-- **C4**: a slash-bearing, operator-free license string — in either the
spaceless form (`MIT/Apache-2.0`) or the space-padded form
(`Apache-2.0 / MIT`) — is split at the slash and treated as `OR` only
when at least one slash operand is recognized; with no recognized operand
(or with a slash that is neither form, e.g. a space elsewhere) it is
classified as a single license.  `"MIT/Apache-2.0"` evaluates to
`("MIT", "permissive")`, `"Apache-2.0 / MIT"` to
`("Apache-2.0", "permissive")`, and `"LGPL-2.1-or-later"` (no literal
slash) is never slash-split. -/
theorem c4_slash_or_guard (expr : String) (config : Config) :
    ((strContains expr " OR " = false) →
      (strContains expr " AND " = false) →
      (strContains expr "/" = true) → (strContains expr " " = false) →
      (anyKnown (slashParts expr) config = false) →
      evaluate_spdx_expr expr config =
        (normalize_license expr config,
          classify_license (normalize_license expr config) config)) ∧
    ((strContains expr " OR " = false) →
      (strContains expr " AND " = false) →
      (strContains expr "/" = true) → (strContains expr " " = false) →
      (anyKnown (slashParts expr) config = true) →
      evaluate_spdx_expr expr config =
        orFold (slashParts expr) expr config) ∧
    ((strContains expr " OR " = false) →
      (strContains expr " AND " = false) →
      (strContains expr " / " = true) →
      (anyKnown (spacedSlashParts expr) config = true) →
      evaluate_spdx_expr expr config =
        orFold (spacedSlashParts expr) expr config) ∧
    ((strContains expr " OR " = false) →
      (strContains expr " AND " = false) →
      (strContains expr " / " = true) →
      (anyKnown (spacedSlashParts expr) config = false) →
      evaluate_spdx_expr expr config =
        (normalize_license expr config,
          classify_license (normalize_license expr config) config)) ∧
    ((strContains expr " OR " = false) →
      (strContains expr " AND " = false) →
      (strContains expr "/" = true) → (strContains expr " " = true) →
      (strContains expr " / " = false) →
      evaluate_spdx_expr expr config =
        (normalize_license expr config,
          classify_license (normalize_license expr config) config)) ∧
    evaluate_spdx_expr "MIT/Apache-2.0" defaultConfig =
      ("MIT", "permissive") ∧
    evaluate_spdx_expr "Apache-2.0 / MIT" defaultConfig =
      ("Apache-2.0", "permissive") ∧
    strContains "LGPL-2.1-or-later" "/" = false ∧
    evaluate_spdx_expr "LGPL-2.1-or-later" defaultConfig =
      ("LGPL-2.1-or-later", "weak_copyleft") := by
  refine ⟨?_, ?_, ?_, ?_, ?_, by decide, by decide, by decide, by decide⟩
  · intro h1 h2 h3 h4 h5
    have h6 : strContains expr " / " = false := by
      cases hsp : strContains expr " / " with
      | false => rfl
      | true =>
        rw [contains_space_of_contains_spaceslash expr hsp] at h4
        exact absurd h4 (by simp)
    simp [evaluate_spdx_expr, h1, h2, h3, h4, h5, evalSlashSpace, h6]
  · intro h1 h2 h3 h4 h5
    simp [evaluate_spdx_expr, h1, h2, h3, h4, h5]
  · intro h1 h2 h3 h4
    have hsp := contains_space_of_contains_spaceslash expr h3
    simp [evaluate_spdx_expr, h1, h2, hsp, evalSlashSpace, h3, h4]
  · intro h1 h2 h3 h4
    have hsp := contains_space_of_contains_spaceslash expr h3
    simp [evaluate_spdx_expr, h1, h2, hsp, evalSlashSpace, h3, h4]
  · intro h1 h2 h3 h4 h5
    simp [evaluate_spdx_expr, h1, h2, h4, evalSlashSpace, h5]

/-! ## Properties of the classification engine -/

/-- An override returned by `find_override` comes from the override
table. -/
lemma find_override_mem {name : String} {config : Config} {o : Override}
    (h : find_override name config = some o) :
    ∃ p ∈ config.license_overrides, p.2 = o := by
  unfold find_override at h
  rcases Option.map_eq_some'.mp h with ⟨p, hp, hpo⟩
  exact ⟨p, List.mem_of_find?_eq_some hp, hpo⟩

/-- `classify_license` returns a configured tier key or `"unknown"`; under
a well-formed configuration that is one of the five bucket keys. -/
lemma classify_license_valid {config : Config} (h : WFConfig config)
    (s : String) : classify_license s config ∈ fiveTiers := by
  unfold classify_license
  cases hf : config.license_tiers.find? (fun p => p.2.contains s) with
  | none => simp; decide
  | some pr =>
    simp
    exact h.1 pr (List.mem_of_find?_eq_some hf)

/-- The `OR` loop's tier is a valid bucket key. -/
lemma orFold_tier_valid {config : Config} (h : WFConfig config)
    (parts : List String) (expr : String) :
    (orFold parts expr config).2 ∈ fiveTiers := by
  unfold orFold
  rcases orRun_spec config parts (expr, "unknown") with ⟨heq, _⟩ |
    ⟨p, _, heq, _, _⟩
  · rw [heq]; exact (by decide : ("unknown" : String) ∈ fiveTiers)
  · rw [heq]; exact classify_license_valid h _

/-- The `AND` loop's tier is a valid bucket key. -/
lemma andFold_tier_valid {config : Config} (h : WFConfig config)
    (parts : List String) (expr : String) :
    (andFold parts expr config).2 ∈ fiveTiers := by
  unfold andFold
  rcases andRun_spec config parts (expr, "permissive") with ⟨heq, _⟩ |
    ⟨p, _, heq, _, _⟩
  · rw [heq]; exact (by decide : ("permissive" : String) ∈ fiveTiers)
  · rw [heq]; exact classify_license_valid h _

/-- The slash-space tail's tier is a valid bucket key. -/
lemma evalSlashSpace_tier_valid {config : Config} (h : WFConfig config)
    (expr : String) : (evalSlashSpace expr config).2 ∈ fiveTiers := by
  simp only [evalSlashSpace]
  split_ifs
  · exact orFold_tier_valid h _ _
  · exact classify_license_valid h _
  · exact classify_license_valid h _

/-- The tier returned by `evaluate_spdx_expr` is always a valid bucket
key under a well-formed configuration. -/
lemma evaluate_tier_valid {config : Config} (h : WFConfig config)
    (expr : String) : (evaluate_spdx_expr expr config).2 ∈ fiveTiers := by
  simp only [evaluate_spdx_expr]
  split_ifs
  · exact orFold_tier_valid h _ _
  · exact andFold_tier_valid h _ _
  · exact orFold_tier_valid h _ _
  · exact evalSlashSpace_tier_valid h _
  · exact evalSlashSpace_tier_valid h _

/-- The tier of a non-override classification is always a valid bucket
key. -/
lemma normalizedTier_valid {config : Config} (h : WFConfig config)
    (raw : String) : (normalizedTier config raw).2 ∈ fiveTiers := by
  unfold normalizedTier
  split_ifs <;>
    first
      | exact (by decide : ("unknown" : String) ∈ fiveTiers)
      | exact evaluate_tier_valid h raw

/-- The tier of an immediate first-pass placement is a valid bucket
key. -/
lemma firstPass_tier_valid {config : Config} (h : WFConfig config)
    (pkg : Pkg) (t : String) (e : Entry)
    (hfp : firstPass config pkg = Sum.inl (t, e)) : t ∈ fiveTiers := by
  unfold firstPass at hfp
  cases ho : find_override pkg.name config with
  | some o =>
    rw [ho] at hfp
    simp only [Sum.inl.injEq, Prod.mk.injEq] at hfp
    rcases find_override_mem ho with ⟨p, hp, hpo⟩
    rw [← hfp.1, ← hpo]
    exact h.2 p hp
  | none =>
    rw [ho] at hfp
    by_cases ht : (normalEntry config pkg).tier = "unknown"
    · rw [if_pos ht] at hfp
      exact absurd hfp (by simp)
    · rw [if_neg ht] at hfp
      simp only [Sum.inl.injEq, Prod.mk.injEq] at hfp
      rw [← hfp.1]
      have : (normalEntry config pkg).tier =
          (normalizedTier config (pkg.license.getD "UNKNOWN")).2 := rfl
      rw [this]
      exact normalizedTier_valid h _

/-- `results[tier].append` succeeds on a valid bucket key and appends to
exactly that bucket. -/
lemma addTo_spec (r : Results) (t : String) (e : Entry)
    (h : t ∈ fiveTiers) :
    ∃ r', addTo r t e = some r' ∧
      ∀ t', getBucket r' t' =
        if t' = t then getBucket r t' ++ [e] else getBucket r t' := by
  fin_cases h <;>
    · refine ⟨_, rfl, fun t' => ?_⟩
      unfold getBucket
      split_ifs <;> simp_all

/-- Appending a list to the unknown bucket changes only that bucket. -/
lemma unknown_append_spec (r : Results) (l : List Entry) :
    ∀ t', getBucket { r with unknown := r.unknown ++ l } t' =
      if t' = "unknown" then getBucket r t' ++ l else getBucket r t' := by
  intro t'
  unfold getBucket
  split_ifs <;> simp_all

/-- The first pass of `classify_packages`, decomposed into the pure
per-record functions `recordBucket` and `pendingFP`. -/
lemma foldFP_spec {config : Config} (h : WFConfig config) :
    ∀ (pkgs : List Pkg) (acc : Results × List (Entry × Pkg)),
      ∃ r pend,
        pkgs.foldlM (fpStep config) acc = some (r, pend) ∧
        pend = acc.2 ++ pendingFP config pkgs ∧
        ∀ t ∈ fiveTiers,
          getBucket r t = getBucket acc.1 t ++ bucketFP config pkgs t := by
  intro pkgs
  induction pkgs with
  | nil =>
    intro acc
    refine ⟨acc.1, acc.2, ?_, by simp [pendingFP], ?_⟩
    · simp [List.foldlM]
    · intro t _; simp [bucketFP]
  | cons pkg rest ih =>
    intro acc
    cases hfp : firstPass config pkg with
    | inl te =>
      obtain ⟨t0, e0⟩ := te
      have hvalid := firstPass_tier_valid h pkg t0 e0 hfp
      obtain ⟨r1, hr1, hbuck1⟩ := addTo_spec acc.1 t0 e0 hvalid
      obtain ⟨r, pend, hfold, hpend, hbuck⟩ := ih (r1, acc.2)
      have hstep : fpStep config acc pkg = some (r1, acc.2) := by
        simp [fpStep, hfp, hr1]
      refine ⟨r, pend, ?_, ?_, ?_⟩
      · simp only [List.foldlM, hstep, Option.bind_some]
        exact hfold
      · rw [hpend]
        simp [pendingFP, hfp]
      · intro t ht
        rw [hbuck t ht, hbuck1 t]
        by_cases hteq : t = t0
        · rw [if_pos hteq]
          simp [bucketFP, recordBucket, hfp, hteq.symm]
        · rw [if_neg hteq]
          simp [bucketFP, recordBucket, hfp, if_neg (Ne.symm hteq)]
    | inr e0 =>
      obtain ⟨r, pend, hfold, hpend, hbuck⟩ := ih (acc.1, acc.2 ++ [(e0, pkg)])
      have hstep : fpStep config acc pkg = some (acc.1, acc.2 ++ [(e0, pkg)]) := by
        simp [fpStep, hfp]
      refine ⟨r, pend, ?_, ?_, ?_⟩
      · simp only [List.foldlM, hstep, Option.bind_some]
        exact hfold
      · rw [hpend]
        simp [pendingFP, hfp]
      · intro t ht
        rw [hbuck t ht]
        simp [bucketFP, recordBucket, hfp]

/-- The second pass of `classify_packages`, decomposed into the pure
per-record function `resolvedBucket`. -/
lemma foldSP_spec {config : Config} (h : WFConfig config) (eco : String)
    (lookup : String → String → Option String) :
    ∀ (pending : List (Entry × Pkg)) (r0 : Results),
      ∃ r, pending.foldlM (spStep config eco lookup) r0 = some r ∧
        ∀ t ∈ fiveTiers,
          getBucket r t = getBucket r0 t ++
            pending.filterMap
              (fun p => resolvedBucket config eco lookup p t) := by
  intro pending
  induction pending with
  | nil =>
    intro r0
    refine ⟨r0, by simp [List.foldlM], ?_⟩
    intro t _; simp
  | cons p rest ih =>
    intro r0
    cases hl : lookup p.1.name p.1.version with
    | some reg =>
      have hvalid := evaluate_tier_valid h reg
      obtain ⟨r1, hr1, hbuck1⟩ :=
        addTo_spec r0 (evaluate_spdx_expr reg config).2
          (resolvedEntry config eco p.1 reg) hvalid
      obtain ⟨r, hfold, hbuck⟩ := ih r1
      have hstep : spStep config eco lookup r0 p = some r1 := by
        simp only [spStep, hl]
        exact hr1
      refine ⟨r, ?_, ?_⟩
      · simp only [List.foldlM, hstep, Option.bind_some]
        exact hfold
      · intro t ht
        rw [hbuck t ht, hbuck1 t]
        by_cases hteq : t = (evaluate_spdx_expr reg config).2
        · rw [if_pos hteq]
          simp [resolvedBucket, hl, hteq.symm]
        · rw [if_neg hteq]
          simp [resolvedBucket, hl, if_neg (Ne.symm hteq)]
    | none =>
      obtain ⟨r, hfold, hbuck⟩ := ih { r0 with unknown := r0.unknown ++ [p.1] }
      have hstep : spStep config eco lookup r0 p =
          some { r0 with unknown := r0.unknown ++ [p.1] } := by
        simp [spStep, hl]
      refine ⟨r, ?_, ?_⟩
      · simp only [List.foldlM, hstep, Option.bind_some]
        exact hfold
      · intro t ht
        rw [hbuck t ht, unknown_append_spec r0 [p.1] t]
        by_cases hteq : t = "unknown"
        · rw [if_pos hteq]
          simp [resolvedBucket, hl, hteq]
        · rw [if_neg hteq]
          simp [resolvedBucket, hl, hteq]

/-- Reduction of `classify_packages` once the first pass is known. -/
lemma classify_packages_eq {config : Config} {pkgs : List Pkg}
    {r1 : Results} {pend : List (Entry × Pkg)} (resolve : Bool)
    (eco : String) (lookup : String → String → Option String)
    (hfold : List.foldlM (fpStep config) (emptyResults, []) pkgs =
      some (r1, pend)) :
    classify_packages pkgs config resolve eco lookup =
      if secondPassEnabled resolve eco pend then
        pend.foldlM (spStep config eco lookup) r1
      else some { r1 with unknown := r1.unknown ++ pend.map (·.1) } := by
  unfold classify_packages firstPassAll
  rw [hfold]
  rfl

/-- Master decomposition of `classify_packages`: under a well-formed
configuration it succeeds and every bucket equals the per-record
`finalBucket` computation. -/
lemma classify_packages_spec {config : Config} (h : WFConfig config)
    (pkgs : List Pkg) (resolve : Bool) (eco : String)
    (lookup : String → String → Option String) :
    ∃ r, classify_packages pkgs config resolve eco lookup = some r ∧
      ∀ t ∈ fiveTiers,
        getBucket r t = finalBucket config pkgs resolve eco lookup t := by
  obtain ⟨r1, pend, hfold, hpend, hbuck⟩ := foldFP_spec h pkgs (emptyResults, [])
  simp only [List.nil_append] at hpend
  have hempty : ∀ t, getBucket emptyResults t = [] := by
    intro t
    unfold getBucket emptyResults
    split_ifs <;> rfl
  have hbuck' : ∀ t ∈ fiveTiers, getBucket r1 t = bucketFP config pkgs t := by
    intro t ht
    have hb := hbuck t ht
    simpa [hempty] using hb
  rw [classify_packages_eq resolve eco lookup hfold]
  by_cases hen : secondPassEnabled resolve eco pend = true
  · obtain ⟨r, hf2, hb2⟩ := foldSP_spec h eco lookup pend r1
    rw [hen]
    refine ⟨r, hf2, ?_⟩
    intro t ht
    rw [hb2 t ht, hbuck' t ht]
    simp only [finalBucket]
    rw [← hpend, hen]
    simp
  · rw [Bool.not_eq_true] at hen
    rw [hen]
    refine ⟨{ r1 with unknown := r1.unknown ++ pend.map (·.1) }, rfl, ?_⟩
    intro t ht
    rw [unknown_append_spec r1 (pend.map (·.1)) t]
    simp only [finalBucket]
    rw [← hpend, hen, hbuck' t ht]
    simp only [Bool.false_eq_true, if_false]
    split_ifs <;> simp

/-- The five first-pass buckets and the pending list together hold every
record exactly once. -/
lemma fp_count {config : Config} (h : WFConfig config) :
    ∀ pkgs : List Pkg,
      (bucketFP config pkgs "permissive").length +
      (bucketFP config pkgs "weak_copyleft").length +
      (bucketFP config pkgs "restrictive").length +
      (bucketFP config pkgs "custom").length +
      (bucketFP config pkgs "unknown").length +
      (pendingFP config pkgs).length = pkgs.length := by
  intro pkgs
  induction pkgs with
  | nil => simp [bucketFP, pendingFP]
  | cons pkg rest ih =>
    cases hfp : firstPass config pkg with
    | inl te =>
      obtain ⟨t0, e0⟩ := te
      have hvalid := firstPass_tier_valid h pkg t0 e0 hfp
      simp only [fiveTiers, List.mem_cons, List.not_mem_nil, or_false]
        at hvalid
      simp only [bucketFP, pendingFP, List.filterMap_cons, recordBucket,
        hfp] at ih ⊢
      rcases hvalid with h5 | h5 | h5 | h5 | h5 <;> subst h5 <;> simp <;> omega
    | inr e0 =>
      simp only [bucketFP, pendingFP, List.filterMap_cons, recordBucket,
        hfp] at ih ⊢
      simp
      omega

/-- The second pass distributes every pending record into exactly one
bucket. -/
lemma sp_count {config : Config} (h : WFConfig config) (eco : String)
    (lookup : String → String → Option String) :
    ∀ pending : List (Entry × Pkg),
      (pending.filterMap
        (fun p => resolvedBucket config eco lookup p "permissive")).length +
      (pending.filterMap
        (fun p => resolvedBucket config eco lookup p "weak_copyleft")).length +
      (pending.filterMap
        (fun p => resolvedBucket config eco lookup p "restrictive")).length +
      (pending.filterMap
        (fun p => resolvedBucket config eco lookup p "custom")).length +
      (pending.filterMap
        (fun p => resolvedBucket config eco lookup p "unknown")).length =
      pending.length := by
  intro pending
  induction pending with
  | nil => simp
  | cons p rest ih =>
    cases hl : lookup p.1.name p.1.version with
    | some reg =>
      have hvalid := evaluate_tier_valid h reg
      simp only [fiveTiers, List.mem_cons, List.not_mem_nil, or_false]
        at hvalid
      rcases hvalid with h5 | h5 | h5 | h5 | h5 <;>
        · simp only [List.filterMap_cons, resolvedBucket, hl, h5] at ih ⊢
          simp at ih ⊢
          omega
    | none =>
      simp only [List.filterMap_cons, resolvedBucket, hl] at ih ⊢
      simp at ih ⊢
      omega

/-- **C2** is false in its exact-before-glob half: with an override table
listing the glob pattern `left*` before the exact name `leftpad`, the
package `leftpad` receives the glob entry's forced license and tier, even
though an exact-name entry also matches. -/
theorem c2_counterexample :
    find_override "leftpad" c2Config = some c2GlobOverride ∧
    c2Config.license_overrides =
      [("left*", c2GlobOverride), ("leftpad", c2ExactOverride)] ∧
    overrideMatches "leftpad" "leftpad" = true ∧
    c2GlobOverride ≠ c2ExactOverride ∧
    (classify_packages [leftpadPkg] c2Config false "npm"
        (fun _ _ => none)).map Results.permissive =
      some [overrideEntry c2Config leftpadPkg c2GlobOverride] ∧
    (classify_packages [leftpadPkg] c2Config false "npm"
        (fun _ _ => none)).map Results.restrictive = some [] := by
  decide

/-- Helper: `find?` returns the first matching element of an appended
list when everything before it fails the predicate. -/
lemma find?_append_first {α : Type} (p : α → Bool) :
    ∀ (pre : List α) (x : α) (rest : List α),
      (∀ q ∈ pre, p q = false) → p x = true →
      List.find? p (pre ++ x :: rest) = some x := by
  intro pre
  induction pre with
  | nil =>
    intro x rest _ hx
    simp [List.find?_cons_of_pos _ hx]
  | cons q qs ih =>
    intro x rest hpre hx
    rw [List.cons_append,
      List.find?_cons_of_neg _ (by simp [hpre q (List.mem_cons_self q qs)])]
    exact ih x rest (fun q' h' => hpre q' (List.mem_cons_of_mem _ h')) hx

/-- **C2** (amended): an override matching the package name always wins —
the record lands in the override's tier bucket with the override's license
and note, regardless of the raw license — and the override used is the
first entry of the table in insertion order whose pattern matches (glob or
exact alike), not the exact match first. -/
theorem c2_override_wins_first_match :
    (∀ (config : Config) (pkgs : List Pkg) (pkg : Pkg) (o : Override)
       (resolve : Bool) (eco : String)
       (lookup : String → String → Option String),
      WFConfig config → pkg ∈ pkgs →
      find_override pkg.name config = some o →
      ∃ r, classify_packages pkgs config resolve eco lookup = some r ∧
        overrideEntry config pkg o ∈ getBucket r o.tier) ∧
    (∀ (name : String) (config : Config)
       (pre tail_ : List (String × Override)) (pat : String) (o : Override),
      config.license_overrides = pre ++ (pat, o) :: tail_ →
      (∀ q ∈ pre, overrideMatches name q.1 = false) →
      overrideMatches name pat = true →
      find_override name config = some o) := by
  constructor
  · intro config pkgs pkg o resolve eco lookup h hmem ho
    obtain ⟨r, hr, hb⟩ := classify_packages_spec h pkgs resolve eco lookup
    have htier : o.tier ∈ fiveTiers := by
      rcases find_override_mem ho with ⟨p, hp, hpo⟩
      rw [← hpo]
      exact h.2 p hp
    refine ⟨r, hr, ?_⟩
    rw [hb o.tier htier]
    unfold finalBucket
    apply List.mem_append_left
    apply List.mem_filterMap.mpr
    exact ⟨pkg, hmem, by simp [recordBucket, firstPass, ho]⟩
  · intro name config pre tail_ pat o hconf hpre hpat
    unfold find_override
    rw [hconf,
      find?_append_first (fun pr => overrideMatches name pr.1) pre (pat, o)
        tail_ hpre hpat]
    rfl

/-- Witness for C2's amended theorem: `leftpad` lands in the permissive
bucket forced by the first matching (glob) override of `c2Config`. -/
theorem c2_witness :
    ∃ r, classify_packages [leftpadPkg] c2Config false "npm"
        (fun _ _ => none) = some r ∧
      overrideEntry c2Config leftpadPkg c2GlobOverride ∈
        getBucket r c2GlobOverride.tier :=
  c2_override_wins_first_match.1 c2Config [leftpadPkg] leftpadPkg
    c2GlobOverride false "npm" (fun _ _ => none) (by decide)
    (List.mem_singleton.mpr rfl) (by decide)

/-- **C3**: under any well-formed configuration `classify_packages`
succeeds and partitions the records — the five bucket lengths sum to the
package count — and `has_violations` holds exactly when the restrictive
bucket is non-empty; the spec's three-package scenario yields summary
`{permissive 1, restrictive 1, unknown 1, total 3}` with violations. -/
theorem c3_partition_summary_scenario :
    (∀ (config : Config) (pkgs : List Pkg) (resolve : Bool) (eco : String)
       (lookup : String → String → Option String),
      WFConfig config →
      ∃ r, classify_packages pkgs config resolve eco lookup = some r ∧
        r.permissive.length + r.weak_copyleft.length +
          r.restrictive.length + r.custom.length + r.unknown.length =
          pkgs.length ∧
        (has_violations r = true ↔ r.restrictive ≠ [])) ∧
    (classify_packages scenarioPkgs defaultConfig true "npm"
        (fun _ _ => none)).map
      (fun r => (summaryOf r scenarioPkgs, has_violations r)) =
      some (⟨1, 0, 1, 0, 1, 3⟩, true) := by
  constructor
  · intro config pkgs resolve eco lookup h
    obtain ⟨r, hr, hb⟩ := classify_packages_spec h pkgs resolve eco lookup
    refine ⟨r, hr, ?_, by simp [has_violations, List.length_pos]⟩
    have h1 := hb "permissive" (by decide)
    have h2 := hb "weak_copyleft" (by decide)
    have h3 := hb "restrictive" (by decide)
    have h4 := hb "custom" (by decide)
    have h5 := hb "unknown" (by decide)
    simp only [getBucket] at h1 h2 h3 h4 h5
    simp at h1 h2 h3 h4 h5
    rw [h1, h2, h3, h4, h5]
    have hfp := fp_count h pkgs
    by_cases hen : secondPassEnabled resolve eco (pendingFP config pkgs) = true
    · have hsp := sp_count h eco lookup (pendingFP config pkgs)
      simp only [finalBucket, hen, if_true, List.length_append]
      omega
    · simp only [Bool.not_eq_true] at hen
      simp only [finalBucket, hen, Bool.false_eq_true, if_false,
        List.length_append]
      simp
      omega
  · decide

/-- Witness for C3's partition statement at the spec's scenario. -/
theorem c3_witness :
    ∃ r, classify_packages scenarioPkgs defaultConfig true "npm"
        (fun _ _ => none) = some r ∧
      r.permissive.length + r.weak_copyleft.length + r.restrictive.length +
        r.custom.length + r.unknown.length = scenarioPkgs.length ∧
      (has_violations r = true ↔ r.restrictive ≠ []) :=
  c3_partition_summary_scenario.1 defaultConfig scenarioPkgs true "npm"
    (fun _ _ => none) (by decide)

/-- **C9**: classification is deterministic and order-independent — the
same inputs give the same result (pure function), every bucket is a
per-record computation (`finalBucket`), and permuting the input package
list permutes every bucket's contents correspondingly (second-pass
registry resolution disabled, matching the claim). -/
theorem c9_classification_deterministic (config : Config) (eco : String)
    (lookup : String → String → Option String) (pkgs pkgs' : List Pkg)
    (h : WFConfig config) (hperm : pkgs.Perm pkgs') :
    classify_packages pkgs config false eco lookup =
      classify_packages pkgs config false eco lookup ∧
    ∃ r r', classify_packages pkgs config false eco lookup = some r ∧
      classify_packages pkgs' config false eco lookup = some r' ∧
      (∀ t ∈ fiveTiers,
        getBucket r t = finalBucket config pkgs false eco lookup t) ∧
      ∀ t ∈ fiveTiers, (getBucket r t).Perm (getBucket r' t) := by
  refine ⟨rfl, ?_⟩
  obtain ⟨r, hr, hb⟩ := classify_packages_spec h pkgs false eco lookup
  obtain ⟨r', hr', hb'⟩ := classify_packages_spec h pkgs' false eco lookup
  refine ⟨r, r', hr, hr', hb, ?_⟩
  intro t ht
  rw [hb t ht, hb' t ht]
  simp only [finalBucket, secondPassEnabled, Bool.false_and,
    Bool.false_eq_true, if_false]
  apply List.Perm.append
  · exact hperm.filterMap _
  · by_cases ht' : t = "unknown"
    · simp only [ht', if_true]
      exact (hperm.filterMap _).map _
    · simp [ht']

/-- Witness for C9 at the scenario list and its reversal. -/
theorem c9_witness :
    classify_packages scenarioPkgs defaultConfig false "npm"
        (fun _ _ => none) =
      classify_packages scenarioPkgs defaultConfig false "npm"
        (fun _ _ => none) ∧
    ∃ r r', classify_packages scenarioPkgs defaultConfig false "npm"
        (fun _ _ => none) = some r ∧
      classify_packages scenarioPkgs.reverse defaultConfig false "npm"
        (fun _ _ => none) = some r' ∧
      (∀ t ∈ fiveTiers,
        getBucket r t =
          finalBucket defaultConfig scenarioPkgs false "npm"
            (fun _ _ => none) t) ∧
      ∀ t ∈ fiveTiers, (getBucket r t).Perm (getBucket r' t) :=
  c9_classification_deterministic defaultConfig "npm" (fun _ _ => none)
    scenarioPkgs scenarioPkgs.reverse (by decide)
    (List.reverse_perm scenarioPkgs).symm

/-- Witness for C4: the unrecognized slash strings `"FooLic/BarLic"` and
`"FooLic / BarLic"` are classified as single licenses, while
`"MIT/Apache-2.0"` and `"Apache-2.0 / MIT"` are slash-split as `OR`, each
through its own branch of the evaluator. -/
theorem c4_witness :
    evaluate_spdx_expr "FooLic/BarLic" defaultConfig =
      (normalize_license "FooLic/BarLic" defaultConfig,
        classify_license
          (normalize_license "FooLic/BarLic" defaultConfig)
          defaultConfig) ∧
    evaluate_spdx_expr "MIT/Apache-2.0" defaultConfig =
      orFold (slashParts "MIT/Apache-2.0") "MIT/Apache-2.0" defaultConfig ∧
    evaluate_spdx_expr "Apache-2.0 / MIT" defaultConfig =
      orFold (spacedSlashParts "Apache-2.0 / MIT") "Apache-2.0 / MIT"
        defaultConfig ∧
    evaluate_spdx_expr "FooLic / BarLic" defaultConfig =
      (normalize_license "FooLic / BarLic" defaultConfig,
        classify_license
          (normalize_license "FooLic / BarLic" defaultConfig)
          defaultConfig) :=
  ⟨(c4_slash_or_guard "FooLic/BarLic" defaultConfig).1
      (by decide) (by decide) (by decide) (by decide) (by decide),
    (c4_slash_or_guard "MIT/Apache-2.0" defaultConfig).2.1
      (by decide) (by decide) (by decide) (by decide) (by decide),
    (c4_slash_or_guard "Apache-2.0 / MIT" defaultConfig).2.2.1
      (by decide) (by decide) (by decide) (by decide),
    (c4_slash_or_guard "FooLic / BarLic" defaultConfig).2.2.2.1
      (by decide) (by decide) (by decide) (by decide)⟩

/-! ## Detector, exit codes, and dev-severity frame -/

set_option maxHeartbeats 1000000 in
/-- **C5**: marker files are probed in a fixed priority order — Solidity's
`foundry.toml` before everything JS/TS (so a directory with both
`foundry.toml` and `package.json` is Solidity), the JS lockfiles in the
order pnpm, yarn, npm ahead of the manifest's `packageManager` field — and
the detector reports no ecosystem exactly when no marker signal of any
supported ecosystem is present. -/
theorem c5_detector_priority (d : Dir) :
    (d.files.contains "foundry.toml" = true →
      d.files.contains "package.json" = true →
      detect_package_manager d = some "solidity") ∧
    (d.files.contains "foundry.toml" = false →
      d.files.contains "pnpm-lock.yaml" = true →
      detect_package_manager d = some "pnpm") ∧
    (d.files.contains "foundry.toml" = false →
      d.files.contains "pnpm-lock.yaml" = false →
      d.files.contains "yarn.lock" = true →
      detect_package_manager d = some "yarn") ∧
    (d.files.contains "foundry.toml" = false →
      d.files.contains "pnpm-lock.yaml" = false →
      d.files.contains "yarn.lock" = false →
      d.files.contains "package-lock.json" = true →
      detect_package_manager d = some "npm") ∧
    (∀ pm : String,
      d.files.contains "foundry.toml" = false →
      d.files.contains "pnpm-lock.yaml" = false →
      d.files.contains "yarn.lock" = false →
      d.files.contains "package-lock.json" = false →
      pmFromField d = some pm →
      detect_package_manager d = some pm) ∧
    (detect_package_manager d = none ↔ hasMarkerSignal d = false) := by
  refine ⟨?_, ?_, ?_, ?_, ?_, ?_⟩
  · intro h1 _
    have h1' : "foundry.toml" ∈ d.files := by simpa using h1
    simp [detect_package_manager, h1']
  · intro h1 h2
    have h1' : "foundry.toml" ∉ d.files := by simpa using h1
    have h2' : "pnpm-lock.yaml" ∈ d.files := by simpa using h2
    simp [detect_package_manager, h1', h2']
  · intro h1 h2 h3
    have h1' : "foundry.toml" ∉ d.files := by simpa using h1
    have h2' : "pnpm-lock.yaml" ∉ d.files := by simpa using h2
    have h3' : "yarn.lock" ∈ d.files := by simpa using h3
    simp [detect_package_manager, h1', h2', h3']
  · intro h1 h2 h3 h4
    have h1' : "foundry.toml" ∉ d.files := by simpa using h1
    have h2' : "pnpm-lock.yaml" ∉ d.files := by simpa using h2
    have h3' : "yarn.lock" ∉ d.files := by simpa using h3
    have h4' : "package-lock.json" ∈ d.files := by simpa using h4
    simp [detect_package_manager, h1', h2', h3', h4']
  · intro pm h1 h2 h3 h4 h5
    have h1' : "foundry.toml" ∉ d.files := by simpa using h1
    have h2' : "pnpm-lock.yaml" ∉ d.files := by simpa using h2
    have h3' : "yarn.lock" ∉ d.files := by simpa using h3
    have h4' : "package-lock.json" ∉ d.files := by simpa using h4
    simp [detect_package_manager, h1', h2', h3', h4', h5]
  · by_cases c1 : "foundry.toml" ∈ d.files
    · simp [detect_package_manager, hasMarkerSignal, markerFiles, c1]
    by_cases c2 : "pnpm-lock.yaml" ∈ d.files
    · simp [detect_package_manager, hasMarkerSignal, markerFiles, c1, c2]
    by_cases c3 : "yarn.lock" ∈ d.files
    · simp [detect_package_manager, hasMarkerSignal, markerFiles, c1, c2, c3]
    by_cases c4 : "package-lock.json" ∈ d.files
    · simp [detect_package_manager, hasMarkerSignal, markerFiles, c1, c2, c3, c4]
    cases hpm : pmFromField d with
    | some pm =>
      simp [detect_package_manager, hasMarkerSignal, markerFiles, c1, c2, c3, c4, hpm]
    | none =>
      by_cases c6 : "Cargo.lock" ∈ d.files ∨ "Cargo.toml" ∈ d.files
      · rcases c6 with c6 | c6 <;>
          simp [detect_package_manager, hasMarkerSignal, markerFiles, c1, c2, c3, c4, hpm, c6]
      by_cases c7 : "gradle/libs.versions.toml" ∈ d.files
      · simp [detect_package_manager, hasMarkerSignal, markerFiles, c1, c2, c3, c4, hpm, c6, c7]
      by_cases c8 : ("build.gradle.kts" ∈ d.files ∨ "build.gradle" ∈ d.files) ∨ "settings.gradle.kts" ∈ d.files
      · rcases c8 with (c8 | c8) | c8 <;>
          simp [detect_package_manager, hasMarkerSignal, markerFiles, c1, c2, c3, c4, hpm, c6, c7, c8]
      by_cases c9 : d.hasPackageResolved = true
      · simp [detect_package_manager, hasMarkerSignal, markerFiles, c1, c2, c3, c4, hpm, c6, c7, c8, c9]
      by_cases c10 : "pubspec.lock" ∈ d.files ∨ "pubspec.yaml" ∈ d.files
      · rcases c10 with c10 | c10 <;>
          simp [detect_package_manager, hasMarkerSignal, markerFiles, c1, c2, c3, c4, hpm, c6, c7, c8, c9, c10]
      by_cases c11 : "go.sum" ∈ d.files ∨ "go.mod" ∈ d.files
      · rcases c11 with c11 | c11 <;>
          simp [detect_package_manager, hasMarkerSignal, markerFiles, c1, c2, c3, c4, hpm, c6, c7, c8, c9, c10, c11]
      by_cases c12 : "Directory.Packages.props" ∈ d.files
      · simp [detect_package_manager, hasMarkerSignal, markerFiles, c1, c2, c3, c4, hpm, c6, c7, c8, c9, c10, c11, c12]
      by_cases c13 : d.hasCsprojOrSln = true
      · simp [detect_package_manager, hasMarkerSignal, markerFiles, c1, c2, c3, c4, hpm, c6, c7, c8, c9, c10, c11, c12, c13]
      by_cases c14 : "poetry.lock" ∈ d.files
      · simp [detect_package_manager, hasMarkerSignal, markerFiles, c1, c2, c3, c4, hpm, c6, c7, c8, c9, c10, c11, c12, c13, c14]
      by_cases c15 : "uv.lock" ∈ d.files
      · simp [detect_package_manager, hasMarkerSignal, markerFiles, c1, c2, c3, c4, hpm, c6, c7, c8, c9, c10, c11, c12, c13, c14, c15]
      by_cases c16 : "Pipfile.lock" ∈ d.files
      · simp [detect_package_manager, hasMarkerSignal, markerFiles, c1, c2, c3, c4, hpm, c6, c7, c8, c9, c10, c11, c12, c13, c14, c15, c16]
      by_cases c17 : "requirements.txt" ∈ d.files
      · simp [detect_package_manager, hasMarkerSignal, markerFiles, c1, c2, c3, c4, hpm, c6, c7, c8, c9, c10, c11, c12, c13, c14, c15, c16, c17]
      push_neg at c6 c8 c10 c11
      simp [detect_package_manager, hasMarkerSignal, markerFiles, c1, c2, c3, c4, hpm, c6.1, c6.2, c8.1.1, c8.1.2, c8.2, c7, c9, c10.1, c10.2, c11.1, c11.2, c12, c13, c14, c15, c16, c17]

/-- Witness for C5: a directory holding both `foundry.toml` and
`package.json` is detected as Solidity, and an empty directory is
undetermined exactly because it carries no marker signal. -/
theorem c5_witness :
    detect_package_manager ⟨["foundry.toml", "package.json"], none,
      false, false⟩ = some "solidity" ∧
    (detect_package_manager ⟨[], none, false, false⟩ = none ↔
      hasMarkerSignal ⟨[], none, false, false⟩ = false) :=
  ⟨(c5_detector_priority ⟨["foundry.toml", "package.json"], none, false,
      false⟩).1 (by decide) (by decide),
    (c5_detector_priority ⟨[], none, false, false⟩).2.2.2.2.2⟩

/-- **C6**: the scan process exits 2 — a code reserved for license
violations, distinct from the generic failure code 1 and from success 0 —
exactly when the scan result has `has_violations`, i.e. when the
restrictive bucket is non-empty; clone failures (`--repo` mode) and
detection failures (`--path` mode) exit 1. -/
theorem c6_exit_codes (r : Results) (cloneOk : Bool)
    (detected : Option String) :
    mainExit true false detected (has_violations r) = 1 ∧
    mainExit false cloneOk none (has_violations r) = 1 ∧
    (mainExit true true detected (has_violations r) = 2 ↔
      r.restrictive ≠ []) ∧
    (∀ pm : String,
      mainExit false cloneOk (some pm) (has_violations r) = 2 ↔
        r.restrictive ≠ []) ∧
    (has_violations r = true ↔ r.restrictive ≠ []) ∧
    (1 : Nat) ≠ 0 ∧ (2 : Nat) ≠ 0 ∧ (1 : Nat) ≠ 2 := by
  have hhv : has_violations r = true ↔ r.restrictive ≠ [] := by
    simp [has_violations, List.length_pos]
  refine ⟨by simp [mainExit], by simp [mainExit], ?_, ?_, hhv,
    by decide, by decide, by decide⟩
  · rw [← hhv]
    cases hb : has_violations r <;> simp [mainExit, hb]
  · intro pm
    rw [← hhv]
    cases hb : has_violations r <;> simp [mainExit, hb]

/-- Witness for C6 at the scenario classification's restrictive bucket. -/
theorem c6_witness :
    mainExit true false none
      (has_violations ⟨[], [], [], [], []⟩) = 1 ∧
    mainExit false true none
      (has_violations ⟨[], [], [], [], []⟩) = 1 ∧
    (mainExit true true none
        (has_violations ⟨[], [], [], [], []⟩) = 2 ↔
      ([] : List Entry) ≠ []) ∧
    (∀ pm : String,
      mainExit false true (some pm)
          (has_violations ⟨[], [], [], [], []⟩) = 2 ↔
        ([] : List Entry) ≠ []) ∧
    (has_violations ⟨[], [], [], [], []⟩ = true ↔
      ([] : List Entry) ≠ []) ∧
    (1 : Nat) ≠ 0 ∧ (2 : Nat) ≠ 0 ∧ (1 : Nat) ≠ 2 :=
  c6_exit_codes ⟨[], [], [], [], []⟩ true none

/-- **C7**: for a dev-flagged record whose computed severity has an entry
in the `dev_severity_reduction` map, classification reports the reduced
severity while the tier, normalized license, raw license, name, version,
and note are identical to the non-dev classification of the same
record. -/
theorem c7_dev_severity_reduction_frame (config : Config) (pkg : Pkg)
    (s' : String)
    (hs : lookupAL config.dev_severity_reduction
      (classifyRecord config { pkg with is_dev := false }).2.severity =
      some s') :
    (classifyRecord config { pkg with is_dev := true }).1 =
      (classifyRecord config { pkg with is_dev := false }).1 ∧
    (classifyRecord config { pkg with is_dev := true }).2.tier =
      (classifyRecord config { pkg with is_dev := false }).2.tier ∧
    (classifyRecord config { pkg with is_dev := true }).2.license =
      (classifyRecord config { pkg with is_dev := false }).2.license ∧
    (classifyRecord config { pkg with is_dev := true }).2.raw_license =
      (classifyRecord config { pkg with is_dev := false }).2.raw_license ∧
    (classifyRecord config { pkg with is_dev := true }).2.name =
      (classifyRecord config { pkg with is_dev := false }).2.name ∧
    (classifyRecord config { pkg with is_dev := true }).2.version =
      (classifyRecord config { pkg with is_dev := false }).2.version ∧
    (classifyRecord config { pkg with is_dev := true }).2.note =
      (classifyRecord config { pkg with is_dev := false }).2.note ∧
    (classifyRecord config { pkg with is_dev := true }).2.severity = s' := by
  obtain ⟨name, version, license, dev⟩ := pkg
  cases ho : find_override name config with
  | some o =>
    simp only [classifyRecord, firstPass, ho, overrideEntry, devAdjust,
      Bool.false_eq_true, if_false, if_true] at hs ⊢
    simp only [hs, Option.getD_some]
    simp
  | none =>
    by_cases ht : (normalizedTier config (license.getD "UNKNOWN")).2 =
        "unknown"
    · simp only [classifyRecord, firstPass, ho, normalEntry, devAdjust,
        Bool.false_eq_true, if_false, ht, if_true] at hs ⊢
      simp only [hs, Option.getD_some]
      simp
    · simp only [classifyRecord, firstPass, ho, normalEntry, devAdjust,
        Bool.false_eq_true, if_false, ht, if_true] at hs ⊢
      simp only [hs, Option.getD_some]
      simp

/-- Witness for C7: a dev-only GPL-3.0 package keeps tier `restrictive`
and license `GPL-3.0` but has its severity reduced from `HIGH` to
`MEDIUM` under the default configuration. -/
theorem c7_witness :
    (classifyRecord defaultConfig
        { (⟨"gpl-tool", "1.0", some "GPL-3.0", false⟩ : Pkg) with
          is_dev := true }).1 =
      (classifyRecord defaultConfig
        { (⟨"gpl-tool", "1.0", some "GPL-3.0", false⟩ : Pkg) with
          is_dev := false }).1 ∧
    (classifyRecord defaultConfig
        { (⟨"gpl-tool", "1.0", some "GPL-3.0", false⟩ : Pkg) with
          is_dev := true }).2.tier =
      (classifyRecord defaultConfig
        { (⟨"gpl-tool", "1.0", some "GPL-3.0", false⟩ : Pkg) with
          is_dev := false }).2.tier ∧
    (classifyRecord defaultConfig
        { (⟨"gpl-tool", "1.0", some "GPL-3.0", false⟩ : Pkg) with
          is_dev := true }).2.license =
      (classifyRecord defaultConfig
        { (⟨"gpl-tool", "1.0", some "GPL-3.0", false⟩ : Pkg) with
          is_dev := false }).2.license ∧
    (classifyRecord defaultConfig
        { (⟨"gpl-tool", "1.0", some "GPL-3.0", false⟩ : Pkg) with
          is_dev := true }).2.raw_license =
      (classifyRecord defaultConfig
        { (⟨"gpl-tool", "1.0", some "GPL-3.0", false⟩ : Pkg) with
          is_dev := false }).2.raw_license ∧
    (classifyRecord defaultConfig
        { (⟨"gpl-tool", "1.0", some "GPL-3.0", false⟩ : Pkg) with
          is_dev := true }).2.name =
      (classifyRecord defaultConfig
        { (⟨"gpl-tool", "1.0", some "GPL-3.0", false⟩ : Pkg) with
          is_dev := false }).2.name ∧
    (classifyRecord defaultConfig
        { (⟨"gpl-tool", "1.0", some "GPL-3.0", false⟩ : Pkg) with
          is_dev := true }).2.version =
      (classifyRecord defaultConfig
        { (⟨"gpl-tool", "1.0", some "GPL-3.0", false⟩ : Pkg) with
          is_dev := false }).2.version ∧
    (classifyRecord defaultConfig
        { (⟨"gpl-tool", "1.0", some "GPL-3.0", false⟩ : Pkg) with
          is_dev := true }).2.note =
      (classifyRecord defaultConfig
        { (⟨"gpl-tool", "1.0", some "GPL-3.0", false⟩ : Pkg) with
          is_dev := false }).2.note ∧
    (classifyRecord defaultConfig
        { (⟨"gpl-tool", "1.0", some "GPL-3.0", false⟩ : Pkg) with
          is_dev := true }).2.severity = "MEDIUM" :=
  c7_dev_severity_reduction_frame defaultConfig
    ⟨"gpl-tool", "1.0", some "GPL-3.0", false⟩ "MEDIUM" (by decide)

/-! ## Properties of the blame tracer -/

/-- A dependency entry that is or contains the target witnesses
reachability of the whole node. -/
lemma reaches_of_mem :
    ∀ (deps : List (String × NpmNode)) (name : String) (sub : NpmNode)
      (target : String), (name, sub) ∈ deps →
      (name = target ∨ Reaches sub target) → Reaches (.mk deps) target := by
  intro deps
  induction deps with
  | nil =>
    intro name sub target h _
    simp at h
  | cons p rest ih =>
    intro name sub target hmem hor
    rcases List.mem_cons.mp hmem with h | h
    · subst h
      rcases hor with rfl | hr
      · exact Reaches.head name sub rest
      · exact Reaches.sub name sub rest target hr
    · exact Reaches.tail p rest target (ih name sub target h hor)

/-- Unfolding `findPath` on a constructed node. -/
lemma findPath_mk (l : List (String × NpmNode)) (target : String)
    (path : List String) :
    findPath (.mk l) target path = findPathList l target path := by
  simp only [findPath, NpmNode.deps]

/-- One step of the `_find_path` loop. -/
lemma findPathList_cons (name : String) (sub : NpmNode)
    (rest : List (String × NpmNode)) (target : String)
    (path : List String) :
    findPathList ((name, sub) :: rest) target path =
      if name = target then some (path ++ [name])
      else
        match findPath sub target (path ++ [name]) with
        | some found => some found
        | none => findPathList rest target path := by
  simp only [findPathList]

/-- `_find_path` finds a chain whenever the target occurs in the tree. -/
lemma findPath_isSome_of_reaches {node : NpmNode} {target : String}
    (hr : Reaches node target) :
    ∀ path, (findPath node target path).isSome = true := by
  induction hr with
  | head name sub rest =>
    intro path
    rw [findPath_mk, findPathList_cons]
    simp
  | sub name s rest t hr ih =>
    intro path
    rw [findPath_mk, findPathList_cons]
    by_cases hn : name = t
    · simp [hn]
    · rw [if_neg hn]
      cases hfp : findPath s t (path ++ [name]) with
      | some c => simp [hfp]
      | none =>
        have hsome := ih (path ++ [name])
        rw [hfp] at hsome
        simp at hsome
  | tail p rest t hr ih =>
    intro path
    obtain ⟨name, sub⟩ := p
    rw [findPath_mk, findPathList_cons]
    by_cases hn : name = t
    · simp [hn]
    · rw [if_neg hn]
      cases hfp : findPath sub t (path ++ [name]) with
      | some c => simp [hfp]
      | none =>
        simp only [hfp]
        have hsome := ih path
        rw [findPath_mk] at hsome
        exact hsome

/-- Soundness of `_find_path`: a returned chain extends the given path by
a root-level dependency name, ends at the target, contains the target,
and the target is reachable through that root-level dependency. -/
lemma findPathList_sound :
    ∀ (n : Nat) (deps : List (String × NpmNode)) (target : String)
      (path c : List String), sizeOf deps ≤ n →
      findPathList deps target path = some c →
      ∃ name sub suffix, (name, sub) ∈ deps ∧ c = path ++ name :: suffix ∧
        c.getLast? = some target ∧ target ∈ name :: suffix ∧
        (name = target ∨ Reaches sub target) := by
  intro n
  induction n with
  | zero =>
    intro deps target path c hle hf
    cases deps with
    | nil => simp [findPathList] at hf
    | cons p rest =>
      exfalso
      simp only [List.cons.sizeOf_spec] at hle
      omega
  | succ n ih =>
    intro deps target path c hle hf
    cases deps with
    | nil => simp [findPathList] at hf
    | cons p rest =>
      obtain ⟨name, sub⟩ := p
      rw [findPathList_cons] at hf
      by_cases hn : name = target
      · rw [if_pos hn] at hf
        simp only [Option.some.injEq] at hf
        refine ⟨name, sub, [], List.mem_cons_self _ _, hf.symm, ?_, ?_,
          Or.inl hn⟩
        · rw [← hf]
          simp [hn]
        · simp [hn]
      · rw [if_neg hn] at hf
        cases hfp : findPath sub target (path ++ [name]) with
        | some found =>
          simp only [hfp, Option.some.injEq] at hf
          subst hf
          obtain ⟨l⟩ := sub
          rw [findPath_mk] at hfp
          have hsize : sizeOf l ≤ n := by
            simp only [List.cons.sizeOf_spec, Prod.mk.sizeOf_spec,
              NpmNode.mk.sizeOf_spec] at hle
            omega
          obtain ⟨name2, sub2, suffix2, hmem2, hc2, hlast2, htin2, hor2⟩ :=
            ih l target (path ++ [name]) found hsize hfp
          refine ⟨name, .mk l, name2 :: suffix2, List.mem_cons_self _ _, ?_,
            hlast2, List.mem_cons_of_mem _ htin2,
            Or.inr (reaches_of_mem l name2 sub2 target hmem2 hor2)⟩
          rw [hc2]
          simp
        | none =>
          simp only [hfp] at hf
          have hsize : sizeOf rest ≤ n := by
            simp only [List.cons.sizeOf_spec] at hle
            omega
          obtain ⟨name2, sub2, suffix2, hmem2, hc2, hlast2, htin2, hor2⟩ :=
            ih rest target path c hsize hf
          exact ⟨name2, sub2, suffix2, List.mem_cons_of_mem _ hmem2, hc2,
            hlast2, htin2, hor2⟩

/-- The npm branch of the chain tracer behaves as the spec describes:
when the flagged package is not a root-level dependency of the `npm ls`
tree and every root-level dependency leading to it is `middle`, the
traced chain starts at `middle` (the attribution target), ends at the
flagged package, contains both, and never attributes the package to
itself; when the package is directly declared, or when no chain can be
determined at all, the fallback is the package itself with a
single-element chain. -/
theorem blameChain_npm_spec :
    (∀ (tree : NpmNode) (middle leaf : String)
       (directDeps : List String) (nestedHas : String → Bool),
      Reaches tree leaf →
      (∀ p ∈ tree.deps, p.1 ≠ leaf) →
      (∀ p ∈ tree.deps, (p.1 = leaf ∨ Reaches p.2 leaf) → p.1 = middle) →
      ∃ chain,
        blameChain false (some tree) directDeps nestedHas leaf =
          (middle, chain) ∧
        chain.head? = some middle ∧ chain.getLast? = some leaf ∧
        middle ∈ chain ∧ leaf ∈ chain ∧ middle ≠ leaf) ∧
    (∀ (directDeps : List String) (nestedHas : String → Bool)
       (pkg : String),
      directDeps.find? (fun dep => nestedHas dep) = none →
      blameChain false none directDeps nestedHas pkg = (pkg, [pkg])) ∧
    (∀ (treeOpt : Option NpmNode) (directDeps : List String)
       (nestedHas : String → Bool) (pkg : String),
      blameChain true treeOpt directDeps nestedHas pkg = (pkg, [pkg])) := by
  refine ⟨?_, ?_, ?_⟩
  · intro tree middle leaf directDeps nestedHas hreach hnotroot honly
    have hsome := findPath_isSome_of_reaches hreach []
    cases hfp : findPath tree leaf [] with
    | none =>
      rw [hfp] at hsome
      simp at hsome
    | some c =>
      obtain ⟨l⟩ := tree
      rw [findPath_mk] at hfp
      obtain ⟨name, sub, suffix, hmem, hc, hlast, htin, hor⟩ :=
        findPathList_sound (sizeOf l) l leaf [] c le_rfl hfp
      have hmem' : (name, sub) ∈ NpmNode.deps (.mk l) := hmem
      have hname : name = middle := honly (name, sub) hmem' hor
      have hne : name ≠ leaf := hnotroot (name, sub) hmem'
      subst hname
      simp only [List.nil_append] at hc
      subst hc
      refine ⟨name :: suffix, ?_, rfl, hlast, List.mem_cons_self _ _,
        htin, hne⟩
      simp [blameChain, traceDepChainNpm, findPath_mk, hfp]
  · intro directDeps nestedHas pkg hfind
    simp [blameChain, traceDepChainNpm, hfind]
  · intro treeOpt directDeps nestedHas pkg
    simp [blameChain]

/-- Instance of the npm chain-tracer lemma on a two-level tree where
`leaf` is reachable only via the direct dependency `middle`, with the
nested-directory fallback empty. -/
theorem blameChain_npm_instance :
    ∃ chain,
      blameChain false (some demoTree) [] (fun _ => false) "leaf" =
        ("middle", chain) ∧
      chain.head? = some "middle" ∧ chain.getLast? = some "leaf" ∧
      "middle" ∈ chain ∧ "leaf" ∈ chain ∧ "middle" ≠ "leaf" :=
  blameChain_npm_spec.1 demoTree "middle" "leaf" [] (fun _ => false)
    (Reaches.sub "middle" (.mk [("leaf", .mk [])]) [] "leaf"
      (Reaches.head "leaf" (.mk []) []))
    (by
      intro p hp
      simp only [demoTree, NpmNode.deps, List.mem_singleton] at hp
      subst hp
      decide)
    (by
      intro p hp hor
      simp only [demoTree, NpmNode.deps, List.mem_singleton] at hp
      subst hp
      rfl)

/-- **C8**: the cargo branch of `_trace_dep_chain_via_pm`, evaluated at a
parsed `cargo tree --invert` output in which the flagged package `leaf`
is reachable only through the direct dependency `middle` of the workspace
root `myproject`, returns the workspace root — not `middle` — as the
attribution target (the reversed chain does contain both `middle` and
`leaf`).  This contradicts the claim and the code's own comments
(`blame.py` lines 242-243 and 251-252: the dep just before the workspace
member, `chain[-2]`, is wanted, but `chain[-1]` is taken). -/
theorem c8_cargo_blames_workspace_root :
    traceDepChainCargo
      (some ["leaf v0.1.0", "└── middle v1.0.0",
             "    └── myproject v0.1.0"]) "leaf" =
      ("myproject", ["myproject", "middle", "leaf"]) ∧
    ("myproject" : String) ≠ "middle" ∧
    "middle" ∈ ["myproject", "middle", "leaf"] ∧
    "leaf" ∈ ["myproject", "middle", "leaf"] := by
  decide

end LicenseCheck
